import Mathlib

/-!
Verification of the ii-agent execution core against its specification.

The development shallowly embeds the relevant Python code:
  * `src/ii_agent/llm/context_manager/llm_summarizing.py` (context manager),
  * `src/ii_agent/agents/reviewer.py` (reviewer agent loop),
  * `docker/proxy_server/main.py` and `src/ii_agent/sandbox/docker_sandbox.py`
    (reverse proxy routing and public-URL synthesis),
  * `src/ii_agent/utils/tool_client/manager/terminal_manager.py`
    (terminal session manager),
  * `src/ii_agent/utils/tool_client/manager/str_replace_manager.py`
    (file-edit manager),
  * `src/ii_agent/server/websocket/chat_session.py` (the `/compact` command).

Python strings are modelled as `List Char`; Python string methods used by the
code above (`strip`, `split`, `join`, `count`, `replace`, slicing, `in`,
`startswith`) are given faithful executable counterparts below.  Recursions
that advance by the length of a separator are totalised with an explicit
fuel argument set to the length of the scanned string, which the scan never
exhausts since every step consumes at least one character.
-/

namespace IIAgent

/-- A Python `str`, modelled as its list of characters. -/
abbrev Str := List Char

/-- Coerce a Lean string literal to the `Str` model. -/
def lit (s : String) : Str := s.data

/-- The characters Python's `str.strip()` removes (ASCII whitespace plus the
C1 separators and NEL that CPython's `str.isspace` accepts; other Unicode
whitespace is not produced by any input considered here). -/
def pyIsSpace (c : Char) : Bool :=
  c = ' ' || c = '\t' || c = '\n' || c = '\r' || c = '\x0b' || c = '\x0c' ||
  c = '\x1c' || c = '\x1d' || c = '\x1e' || c = '\x1f' || c = '\x85'

/-- Python `s.strip()`: drop leading and trailing whitespace. -/
def pyStrip (s : Str) : Str :=
  ((s.dropWhile pyIsSpace).reverse.dropWhile pyIsSpace).reverse

/-- Python `s.split(sep)` for a one-character separator `sep`. -/
def splitOnChar (sep : Char) : Str → List Str
  | [] => [[]]
  | c :: cs =>
    match splitOnChar sep cs with
    | [] => [[]]
    | g :: gs => if c = sep then [] :: g :: gs else (c :: g) :: gs

/-- Python `sep.join(parts)`. -/
def joinWith (sep : Str) : List Str → Str
  | [] => []
  | [g] => g
  | g :: gs => g ++ sep ++ joinWith sep gs

/-- Python `sub in s` (substring containment). -/
def containsSub (sub : Str) : Str → Bool
  | [] => sub.isEmpty
  | c :: cs => sub.isPrefixOf (c :: cs) || containsSub sub cs

/-- Fuel-driven core of Python `s.split(sep)` for a multi-character
separator: non-overlapping leftmost matches, advancing by `sep.length`. -/
def splitOnStrFuel (sep : Str) : Nat → Str → List Str
  | _, [] => [[]]
  | 0, l => [l]
  | fuel + 1, c :: cs =>
    if sep.isPrefixOf (c :: cs) && !sep.isEmpty then
      [] :: splitOnStrFuel sep fuel ((c :: cs).drop sep.length)
    else
      match splitOnStrFuel sep fuel cs with
      | [] => [[c]]
      | g :: gs => (c :: g) :: gs

/-- Python `s.split(sep)` for a non-empty separator string. -/
def splitOnStr (sep : Str) (s : Str) : List Str := splitOnStrFuel sep s.length s

/-- Fuel-driven core of Python `s.count(sub)`: non-overlapping occurrences. -/
def pyCountFuel (sub : Str) : Nat → Str → Nat
  | _, [] => if sub.isEmpty then 1 else 0
  | 0, _ => 0
  | fuel + 1, c :: cs =>
    if sub.isPrefixOf (c :: cs) && !sub.isEmpty then
      1 + pyCountFuel sub fuel ((c :: cs).drop sub.length)
    else
      pyCountFuel sub fuel cs

/-- Python `s.count(sub)`. -/
def pyCount (sub : Str) (s : Str) : Nat := pyCountFuel sub s.length s

/-- Fuel-driven core of Python `s.replace(sub, repl)`: replaces every
non-overlapping leftmost occurrence. -/
def pyReplaceFuel (sub repl : Str) : Nat → Str → Str
  | _, [] => if sub.isEmpty then repl else []
  | 0, l => l
  | fuel + 1, c :: cs =>
    if sub.isEmpty then
      repl ++ c :: pyReplaceFuel sub repl fuel cs
    else if sub.isPrefixOf (c :: cs) then
      repl ++ pyReplaceFuel sub repl fuel ((c :: cs).drop sub.length)
    else
      c :: pyReplaceFuel sub repl fuel cs

/-- Python `s.replace(sub, repl)`. -/
def pyReplace (sub repl : Str) (s : Str) : Str := pyReplaceFuel sub repl s.length s

/-- Clamp one Python slice index `i` for a sequence of length `len`. -/
def pyIdx (len : Nat) (i : Int) : Nat :=
  if i < 0 then (max 0 ((len : Int) + i)).toNat else min i.toNat len

/-- Python `l[a:b]` (step 1, with negative-index clamping). -/
def pySlice (l : List α) (a b : Int) : List α :=
  (l.take (pyIdx l.length b)).drop (pyIdx l.length a)

/-- Python `l[a:]`. -/
def pySliceFrom (l : List α) (a : Int) : List α := l.drop (pyIdx l.length a)

/-- Python `str(n)` for a non-negative integer. -/
def natStr (n : Nat) : Str := (Nat.repr n).data

/-- Python `str(i)` for an arbitrary integer. -/
def intStr (i : Int) : Str := (toString i).data

/-- Python `repr` of a list of integers, e.g. `[0, 5]`. -/
def natListStr (l : List Nat) : Str :=
  '[' :: joinWith (lit ", ") (l.map natStr) ++ [']']


/-! ## Content blocks and turns (from `ii_agent.llm.base`)

The block classes (`TextPrompt`, `TextResult`, `AnthropicThinkingBlock`,
`AnthropicRedactedThinkingBlock`, `ToolCall`, `ToolFormattedResult`) are the
message vocabulary used by the summarizing context manager, the reviewer
agent and the tests; they are plain dataclasses in Python. -/

inductive Block where
  | textPrompt (text : Str)
  | textResult (text : Str)
  | thinkingBlock (thinking : Str)
  | redactedThinkingBlock (data : Str)
  | toolCall (toolCallId toolName : Str) (toolInput : Str)
  | toolFormattedResult (toolCallId toolName : Str) (toolOutput : Str)
  deriving DecidableEq

/-- A turn: one ordered group of content blocks (`list[GeneralContentBlock]`). -/
abbrev Turn := List Block

/-! ## `LLMSummarizingContextManager` (`llm/context_manager/llm_summarizing.py`) -/

/-- The configuration of `LLMSummarizingContextManager`; `token_budget` and
the token counter only influence when truncation fires, not its shape, and
are omitted. -/
structure CMConfig where
  maxSize : Nat
  keepFirst : Nat
  maxEventLength : Nat
  deriving DecidableEq

/-- The constructor defaults: `max_size = 100`, `keep_first = 1`,
`max_event_length = 10_000`. -/
def defaultCMConfig : CMConfig := ⟨100, 1, 10000⟩

/-- The fixed summarization prompt template (`self.summary_prompt` in
`LLMSummarizingContextManager.__init__`), transcribed verbatim. -/
def summaryPromptRaw : String := "
Your task is to create a detailed summary of the conversation so far, paying close attention to the user\x27s explicit requests and your previous actions.
This summary should be thorough in capturing technical details, code patterns, and architectural decisions that would be essential for continuing development work without losing context.

Before providing your final summary, wrap your analysis in <analysis> tags to organize your thoughts and ensure you\x27ve covered all necessary points. In your analysis process:

1. Chronologically analyze each message and section of the conversation. For each section thoroughly identify:
   - The user\x27s explicit requests and intents
   - Your approach to addressing the user\x27s requests
   - Key decisions, technical concepts and code patterns
   - Specific details like file names, full code snippets, function signatures, file edits, etc
2. Double-check for technical accuracy and completeness, addressing each required element thoroughly.

Your summary should include the following sections:

1. Primary Request and Intent: Capture all of the user\x27s explicit requests and intents in detail
2. Key Technical Concepts: List all important technical concepts, technologies, and frameworks discussed.
3. Files and Code Sections: Enumerate specific files and code sections examined, modified, or created. Pay special attention to the most recent messages and include full code snippets where applicable and include a summary of why this file read or edit is important.
4. Problem Solving: Document problems solved and any ongoing troubleshooting efforts.
5. Pending Tasks: Outline any pending tasks that you have explicitly been asked to work on.
6. Current Work: Describe in detail precisely what was being worked on immediately before this summary request, paying special attention to the most recent messages from both user and assistant. Include file names and code snippets where applicable.
7. Optional Next Step: List the next step that you will take that is related to the most recent work you were doing. IMPORTANT: ensure that this step is DIRECTLY in line with the user\x27s explicit requests, and the task you were working on immediately before this summary request. If your last task was concluded, then only list next steps if they are explicitly in line with the users request. Do not start on tangential requests without confirming with the user first.
                       If there is a next step, include direct quotes from the most recent conversation showing exactly what task you were working on and where you left off. This should be verbatim to ensure there\x27s no drift in task interpretation.

Here\x27s an example of how your output should be structured:

<example>
<analysis>
[Your thought process, ensuring all points are covered thoroughly and accurately]
</analysis>

<summary>
1. Primary Request and Intent:
   [Detailed description]

2. Key Technical Concepts:
   - [Concept 1]
   - [Concept 2]
   - [...]

3. Files and Code Sections:
   - [File Name 1]
      - [Summary of why this file is important]
      - [Summary of the changes made to this file, if any]
      - [Important Code Snippet]
   - [File Name 2]
      - [Important Code Snippet]
   - [...]

4. Problem Solving:
   [Description of solved problems and ongoing troubleshooting]

5. Pending Tasks:
   - [Task 1]
   - [Task 2]
   - [...]

6. Current Work:
   [Precise description of current work]

7. Optional Next Step:
   [Optional Next step to take]

</summary>
</example>

Please provide your summary based on the conversation so far, following this structure and ensuring precision and thoroughness in your response. 

There may be additional summarization instructions provided in the included context. If so, remember to follow these instructions when creating the above summary. Examples of instructions include:
<example>
## Compact Instructions
When summarizing the conversation focus on typescript code changes and also remember the mistakes you made and how you fixed them.
</example>

<example>
# Summary instructions
When you are using compact - please focus on test output and code changes. Include file reads verbatim.
</example>
"

/-- The summarization prompt as a `Str`. -/
def summaryPromptText : Str := lit summaryPromptRaw

/-- `_truncate_content`: clip to `max_event_length` characters and append an
ellipsis marker. -/
def truncateContent (cfg : CMConfig) (content : Str) : Str :=
  if content.length ≤ cfg.maxEventLength then content
  else content.take cfg.maxEventLength ++ lit "... [truncated]"

/-- One entry of `_message_list_to_string`.  Redacted thinking is skipped;
for blocks outside the special-cased classes the source formats the class
name followed by `str(message)`; the exact dataclass rendering is irrelevant
to every claim and is abbreviated here to the class name and the payload
fields. -/
def blockToPart : Block → Option Str
  | .textPrompt t => some (lit "USER: " ++ t)
  | .textResult t => some (lit "ASSISTANT: " ++ t)
  | .thinkingBlock t => some (lit "ASSISTANT: " ++ t)
  | .redactedThinkingBlock _ => none
  | .toolCall i n inp => some (lit "ToolCall: " ++ i ++ lit " " ++ n ++ lit " " ++ inp)
  | .toolFormattedResult i n out =>
      some (lit "ToolFormattedResult: " ++ i ++ lit " " ++ n ++ lit " " ++ out)

/-- `_message_list_to_string`. -/
def messageListToString (ml : Turn) : Str :=
  joinWith (lit "\n") (ml.filterMap blockToPart)

/-- `_has_thinking_blocks`. -/
def hasThinkingBlocks (ml : List Turn) : Bool :=
  ml.any fun t => t.any fun b =>
    match b with
    | .thinkingBlock _ => true
    | .redactedThinkingBlock _ => true
    | _ => false

/-- Does a turn contain a `TextPrompt`? -/
def turnHasTextPrompt (t : Turn) : Bool :=
  t.any fun b => match b with | .textPrompt _ => true | _ => false

/-- `_find_last_text_prompt_index`: scan indices from the back for a turn
containing a `TextPrompt`; fall back to `len(message_lists) - 1` (which is
`-1` on an empty history). -/
def findLastTextPromptIndex (ml : List Turn) : Int :=
  match (List.range ml.length).reverse.find? (fun i => turnHasTextPrompt (ml.getD i [])) with
  | some i => (i : Int)
  | none => (ml.length : Int) - 1

/-- The summarization LLM call (`self.client.generate` inside
`_generate_summary`): maps the prompt to either a model response or the
message of a raised exception. -/
abbrev LLMGen := Str → Except Str (List Block)

/-- The text of a `TextResult` block, if any. -/
def textResultText : Block → Option Str
  | .textResult t => some t
  | _ => none

/-- The previous-summary text `_generate_summary` inserts into the prompt:
the `"Conversation Summary: "` marker is removed when a real previous
summary is present, otherwise the section is empty. -/
def prevSummaryForPrompt (previousSummaryContent : Str) : Str :=
  if previousSummaryContent ≠ lit "No events summarized" then
    pyReplace (lit "Conversation Summary: ") [] previousSummaryContent
  else []

/-- The prompt built by `_generate_summary`: fixed template, the previous
summary inside the `<PREVIOUS SUMMARY>` delimiter, then the forgotten events
inside `<EVENT id=i>` delimiters, each clipped to `max_event_length`. -/
def generateSummaryPrompt (cfg : CMConfig) (forgottenEvents : List Turn)
    (previousSummaryContent : Str) : Str :=
  summaryPromptText
    ++ lit "<PREVIOUS SUMMARY>\n"
    ++ truncateContent cfg (prevSummaryForPrompt previousSummaryContent)
    ++ lit "\n</PREVIOUS SUMMARY>\n\n"
    ++ (forgottenEvents.enum.map fun p =>
          lit "<EVENT id=" ++ natStr p.1 ++ lit ">\n"
            ++ truncateContent cfg (messageListToString p.2) ++ lit "\n</EVENT>\n").flatten
    ++ lit "\nNow summarize the events using the rules above."

/-- `_generate_summary`: feed the prompt to the LLM and concatenate the
`TextResult` texts of the response; a raised exception yields the fallback
summary text. -/
def generateSummary (cfg : CMConfig) (client : LLMGen) (forgottenEvents : List Turn)
    (previousSummaryContent : Str) : Str :=
  match client (generateSummaryPrompt cfg forgottenEvents previousSummaryContent) with
  | .ok modelResponse => (modelResponse.filterMap textResultText).flatten
  | .error e =>
      lit "Failed to summarize " ++ natStr forgottenEvents.length
        ++ lit " events due to error: " ++ e

/-- `target_size`: half of `min(max_size, len(message_lists))` (both
truncation strategies compute this the same way). -/
def targetSizeOf (cfg : CMConfig) (ml : List Turn) : Nat :=
  (min cfg.maxSize ml.length) / 2

/-- `last_summary_index` of `_apply_truncation_with_thinking_blocks`. -/
def lastSummaryIndexA (cfg : CMConfig) (ml : List Turn) : Int :=
  min (findLastTextPromptIndex ml) ((cfg.keepFirst : Int) + (targetSizeOf cfg ml : Int))

/-- `events_to_summarize` of `_apply_truncation_with_thinking_blocks`:
`message_lists[keep_first : last_summary_index]`. -/
def eventsToSummarizeA (cfg : CMConfig) (ml : List Turn) : List Turn :=
  pySlice ml (cfg.keepFirst : Int) (lastSummaryIndexA cfg ml)

/-- `events_to_keep` of `_apply_truncation_with_thinking_blocks`:
`message_lists[last_summary_index:]`. -/
def eventsToKeepA (cfg : CMConfig) (ml : List Turn) : List Turn :=
  pySliceFrom ml (lastSummaryIndexA cfg ml)

/-- `_apply_truncation_with_thinking_blocks` (Strategy A). -/
def applyTruncationWithThinkingBlocks (cfg : CMConfig) (client : LLMGen)
    (ml : List Turn) : List Turn :=
  let lastPromptIndex := findLastTextPromptIndex ml
  if lastPromptIndex ≤ 0 then ml
  else
    let eventsToSummarize := eventsToSummarizeA cfg ml
    if eventsToSummarize.length ≤ 1 then ml
    else
      ml.take cfg.keepFirst
        ++ [[Block.textResult (lit "Conversation Summary: "
              ++ generateSummary cfg client eventsToSummarize (lit "No events summarized"))]]
        ++ eventsToKeepA cfg ml

/-- `head` of `_apply_truncation_without_thinking_blocks`:
`message_lists[:keep_first]`. -/
def headB (cfg : CMConfig) (ml : List Turn) : List Turn := ml.take cfg.keepFirst

/-- `events_from_tail` of `_apply_truncation_without_thinking_blocks`
(a Python `int`, possibly negative). -/
def eventsFromTailB (cfg : CMConfig) (ml : List Turn) : Int :=
  (targetSizeOf cfg ml : Int) - ((headB cfg ml).length : Int) - 1

/-- The previous-summary detection of
`_apply_truncation_without_thinking_blocks`: the turn at index `keep_first`
exists, is non-empty, its first block is a `TextPrompt`, and that text
starts with `"Conversation Summary:"`. -/
def hasPrevSummaryB (cfg : CMConfig) (ml : List Turn) : Bool :=
  decide (cfg.keepFirst < ml.length) &&
    match ml.getD cfg.keepFirst [] with
    | Block.textPrompt t :: _ => (lit "Conversation Summary:").isPrefixOf t
    | _ => false

/-- The text of the first block of a turn, when that block is a
`TextPrompt`. -/
def firstTextPromptText : Turn → Str
  | Block.textPrompt t :: _ => t
  | _ => []

/-- `summary_content` of `_apply_truncation_without_thinking_blocks`. -/
def summaryContentB (cfg : CMConfig) (ml : List Turn) : Str :=
  if hasPrevSummaryB cfg ml then firstTextPromptText (ml.getD cfg.keepFirst [])
  else lit "No events summarized"

/-- `summary_start_idx` of `_apply_truncation_without_thinking_blocks`. -/
def summaryStartIdxB (cfg : CMConfig) (ml : List Turn) : Nat :=
  if hasPrevSummaryB cfg ml then cfg.keepFirst + 1 else cfg.keepFirst

/-- `forgotten_events` of `_apply_truncation_without_thinking_blocks`:
`message_lists[summary_start_idx:-events_from_tail]` when
`events_from_tail > 0`, else `message_lists[summary_start_idx:]`. -/
def forgottenEventsB (cfg : CMConfig) (ml : List Turn) : List Turn :=
  let eft := eventsFromTailB cfg ml
  if 0 < eft then pySlice ml (summaryStartIdxB cfg ml : Int) (-eft)
  else pySliceFrom ml (summaryStartIdxB cfg ml : Int)

/-- `_apply_truncation_without_thinking_blocks` (Strategy B). -/
def applyTruncationWithoutThinkingBlocks (cfg : CMConfig) (client : LLMGen)
    (ml : List Turn) : List Turn :=
  let forgottenEvents := forgottenEventsB cfg ml
  if forgottenEvents = [] then ml
  else
    let eft := eventsFromTailB cfg ml
    headB cfg ml
      ++ [[Block.textResult (lit "Conversation Summary: "
            ++ generateSummary cfg client forgottenEvents (summaryContentB cfg ml))]]
      ++ (if 0 < eft then pySliceFrom ml (-eft) else [])

/-- `apply_truncation`: route on the presence of thinking blocks. -/
def applyTruncation (cfg : CMConfig) (client : LLMGen) (ml : List Turn) : List Turn :=
  if hasThinkingBlocks ml then applyTruncationWithThinkingBlocks cfg client ml
  else applyTruncationWithoutThinkingBlocks cfg client ml

/-- `generate_complete_conversation_summary` (used by `/compact`). -/
def generateCompleteConversationSummary (client : LLMGen)
    (ml : List Turn) : Str :=
  if ml = [] then lit "No conversation history to summarize."
  else
    let conversationContent :=
      (ml.enum.map fun p =>
        lit "<TURN id=" ++ natStr p.1 ++ lit ">\n"
          ++ messageListToString p.2 ++ lit "\n</TURN>\n\n").flatten
    let prompt :=
      summaryPromptText ++ lit "<CONVERSATION>\n" ++ conversationContent
        ++ lit "\n</CONVERSATION>\n\n"
        ++ lit "Now summarize the conversation using the rules above."
    match client prompt with
    | .ok modelResponse => (modelResponse.filterMap textResultText).flatten
    | .error e => lit "Failed to summarize conversation due to error: " ++ e


/-! ## The `/compact` command (`server/websocket/chat_session.py`) -/

/-- The events `_handle_compact_command` can emit onto the session queue
(only the fields it fills are modelled). -/
inductive SessionEvent where
  | errorEvent (message : Str)
  | streamComplete
  | processing (message : Str)
  | systemEvent (message summary : Str)
  | agentResponse
  deriving DecidableEq

/-- Modelled from the spec: `MessageHistory.clear` (the class is not under
`src/`) empties the ordered list of turns. -/
def historyClear (_h : List Turn) : List Turn := []

/-- Modelled from the spec: `MessageHistory.add_user_prompt` (the class is
not under `src/`) appends a single user turn containing one `TextPrompt`
block with the given text. -/
def addUserPrompt (h : List Turn) (text : Str) : List Turn :=
  h ++ [[Block.textPrompt text]]

/-- The display summary `_handle_compact_command` sends to the client. -/
def compactSummaryDisplay (summaryResponse : Str) : Str :=
  lit "## Conversation Summary\n\n" ++ summaryResponse
    ++ lit "\n\n---\n\n*This conversation summary was generated by the /compact command to help preserve context.*\n"

/-- The synthetic user turn text `_handle_compact_command` seeds the cleared
history with. -/
def compactSeedText (summaryResponse : Str) : Str :=
  lit "This session is being continued from a previous conversation that ran out of context. The conversation is summarized below:\n\n"
    ++ summaryResponse

/-- `ChatSession._handle_compact_command`, as the pair of the events it
emits and the history it leaves behind.  The agent and its history object
exist (the guard `not self.agent or not self.agent.history` is about
object presence, not emptiness); the emptiness check is
`if not message_lists`. -/
def handleCompactCommand (client : LLMGen) (history : List Turn) :
    List SessionEvent × List Turn :=
  if history = [] then
    ([SessionEvent.errorEvent (lit "No conversation history available to compact."),
      SessionEvent.streamComplete], history)
  else
    let summaryResponse := generateCompleteConversationSummary client history
    let newHistory := addUserPrompt (historyClear history) (compactSeedText summaryResponse)
    ([SessionEvent.processing (lit "Compacting conversation history..."),
      SessionEvent.systemEvent
        (lit "Conversation compacted successfully. History has been summarized and condensed. This is the summarize "
          ++ compactSummaryDisplay summaryResponse)
        (compactSummaryDisplay summaryResponse),
      SessionEvent.agentResponse], newHistory)

/-! ## `ReviewerAgent.run_impl` (`agents/reviewer.py`)

The loop is embedded with its collaborators as oracles: `llmGen` models
`self.client.generate` on the current message list, `runTool` models
`self.tool_manager.run_tool`, and `truncate` models
`self.context_manager.apply_truncation_if_needed` (the context-manager base
class is not under `src/`).  `self.interrupted` is `False` throughout (the
claims considered here involve no cancellation).  A Python exception
raised by the loop is modelled as `Except.error` carrying its message. -/

/-- The output record `ToolImplOutput` of a completed reviewer run. -/
structure ToolImplOutput where
  toolOutput : Str
  toolResultMessage : Str
  deriving DecidableEq

/-- Is a block a `ToolCall`? -/
def isToolCallBlock : Block → Bool
  | .toolCall _ _ _ => true
  | _ => false

/-- Modelled from the spec: `MessageHistory.get_pending_tool_calls` (the
class is not under `src/`) returns the `ToolCall` blocks of the most recent
turn that have no matching `ToolResult` yet; immediately after
`add_assistant_turn(model_response)` these are exactly the `ToolCall`
blocks of `model_response`. -/
def pendingToolCallsOf (modelResponse : Turn) : List Block :=
  modelResponse.filter isToolCallBlock

/-- The tool name of a block (`tool_call.tool_name`). -/
def toolNameOf : Block → Str
  | .toolCall _ n _ => n
  | _ => []

/-- Modelled from the spec: `add_tool_call_result` appends a turn carrying
the `ToolResult` for the given call. -/
def toolResultTurnFor (tc : Block) (result : Str) : Turn :=
  match tc with
  | .toolCall i n _ => [Block.toolFormattedResult i n result]
  | _ => [Block.toolFormattedResult [] [] result]

/-- The user prompt added before the final feedback generation. -/
def summarizeReviewText : Str :=
  lit "Now based on your review, please rewrite detailed feedback to the general agent."

/-- The first `TextResult` text of a model response (`for message in
model_response: if isinstance(message, TextResult): ... break`). -/
def firstTextResult (modelResponse : List Block) : Option Str :=
  (modelResponse.filterMap textResultText).head?

/-- The `ToolImplOutput` returned when the final feedback generation yields
no (non-empty) text. -/
def reviewerNoTextOutput : ToolImplOutput :=
  ⟨lit "ERROR: Reviewer did not provide text feedback",
   lit "Review incomplete - no text response"⟩

/-- The `ToolImplOutput` returned when `max_turns` is exhausted. -/
def reviewerMaxTurnsOutput : ToolImplOutput :=
  ⟨lit "ERROR: Reviewer did not complete review within maximum turns. The review process was interrupted or took too long to complete.",
   lit "Review incomplete - maximum turns reached"⟩

/-- The `while remaining_turns > 0` loop of `ReviewerAgent.run_impl`, from a
given history (the review instruction has already been appended).  Each
iteration truncates the history, calls the LLM (substituting
`TextResult("No response from model")` for an empty response), appends the
assistant turn, and inspects the pending tool calls: more than one raises
`ValueError("Only one tool call per turn is supported")`; exactly one is
dispatched, and if it is the termination tool a final feedback generation
ends the run; otherwise the loop continues. -/
def runImplLoop (llmGen : List Turn → List Block) (runTool : Block → Str)
    (truncate : List Turn → List Turn) :
    Nat → List Turn → Except Str ToolImplOutput
  | 0, _ => .ok reviewerMaxTurnsOutput
  | remainingTurns + 1, history =>
    let messages := truncate history
    let rawResponse := llmGen messages
    let modelResponse :=
      if rawResponse = [] then [Block.textResult (lit "No response from model")]
      else rawResponse
    let history1 := messages ++ [modelResponse]
    let pending := pendingToolCallsOf modelResponse
    if 1 < pending.length then
      .error (lit "Only one tool call per turn is supported")
    else
      match pending with
      | [toolCall] =>
        let toolResult := runTool toolCall
        let history2 := history1 ++ [toolResultTurnFor toolCall toolResult]
        if toolNameOf toolCall = lit "return_control_to_general_agent" then
          let history3 := history2 ++ [[Block.textPrompt summarizeReviewText]]
          let messages3 := truncate history3
          let modelResponse2 := llmGen messages3
          match firstTextResult modelResponse2 with
          | some t =>
            if t ≠ [] then
              .ok ⟨t, lit "Reviewer completed comprehensive review"⟩
            else .ok reviewerNoTextOutput
          | none => .ok reviewerNoTextOutput
        else
          runImplLoop llmGen runTool truncate remainingTurns history2
      | _ => runImplLoop llmGen runTool truncate remainingTurns history1


/-! ## `PexpectSessionManager` (`utils/tool_client/manager/terminal_manager.py`)

The pexpect child process is external: each embedded operation takes the
outcome of its `expect` interaction as an explicit argument.  The manager is
modelled with `use_relative_path = False` and without a Docker container
(the configuration exercised by the claims); `_format_output` then equals
`_format_output_raw`. -/

/-- `SessionState`. -/
inductive SessState where
  | running
  | completed
  | error
  | ready
  | idle
  deriving DecidableEq

/-- A `PexpectSession`: `child` is modelled by the flag `hasChild`,
`last_command = None` and `current_directory = None` by the empty string. -/
structure TSession where
  id : Str
  hasChild : Bool
  state : SessState
  lastCommand : Str
  history : List Str
  currentDirectory : Str
  deriving DecidableEq

/-- The manager state: the `sessions` dict (an association list whose first
binding for a key is current) and the mutable `self.work_dir`. -/
structure TMState where
  sessions : List (Str × TSession)
  workDir : Str
  deriving DecidableEq

/-- `self.sessions.get(id)`. -/
def sessionsGet (st : TMState) (id : Str) : Option TSession :=
  st.sessions.lookup id

/-- `self.sessions[id] = session` (overwrite by shadowing). -/
def sessionsSet (st : TMState) (id : Str) (s : TSession) : TMState :=
  { st with sessions := (id, s) :: st.sessions }

/-- `self.sessions.pop(id)`. -/
def sessionsPop (st : TMState) (id : Str) : TMState :=
  { st with sessions := st.sessions.eraseP (fun p => p.1 == id) }

/-- The result record `SessionResult`. -/
structure SessionResultM where
  success : Bool
  output : Str
  deriving DecidableEq

/-- Is a character in the regex class `[0-?]` (CSI parameter bytes)? -/
def isCsiParam (c : Char) : Bool := 0x30 ≤ c.toNat && c.toNat ≤ 0x3F

/-- Is a character in the CSI intermediate-byte class (0x20 to 0x2F)? -/
def isCsiInter (c : Char) : Bool := 0x20 ≤ c.toNat && c.toNat ≤ 0x2F

/-- Is a character in the regex class `[@-~]` (CSI final bytes)? -/
def isCsiFinal (c : Char) : Bool := 0x40 ≤ c.toNat && c.toNat ≤ 0x7E

/-- Match the manager CSI regex (escape, literal bracket, parameter bytes,
intermediate bytes, one final byte) immediately after the
escape byte.  The three character classes are
disjoint, so the greedy scan without backtracking matches exactly what the
regex engine matches.  Returns the remainder after the match. -/
def csiMatch : Str → Option Str
  | [] => none
  | c :: rest =>
    if c = '[' then
      match (rest.dropWhile isCsiParam).dropWhile isCsiInter with
      | f :: rest3 => if isCsiFinal f then some rest3 else none
      | [] => none
    else none

/-- Fuel-driven core of `self.ansi_escape.sub("", text)`: scan left to
right, removing each leftmost non-overlapping match of the CSI regex and
continuing after it (Python `re.sub` does not rescan replaced output).  The
fuel is the length of the text; each step consumes at least one
character. -/
def cleanAnsiFuel : Nat → Str → Str
  | _, [] => []
  | 0, l => l
  | fuel + 1, c :: rest =>
    if c = '\x1b' then
      match csiMatch rest with
      | some rest1 => cleanAnsiFuel fuel rest1
      | none => c :: cleanAnsiFuel fuel rest
    else c :: cleanAnsiFuel fuel rest

/-- `self.ansi_escape.sub("", text)`. -/
def cleanAnsi (l : Str) : Str := cleanAnsiFuel l.length l

/-- `_clean_ansi_escape_sequences`: the regex substitution, then removal of
one leading carriage return. -/
def cleanAnsiEscapeSequences (text : Str) : Str :=
  match cleanAnsi text with
  | c :: rest => if c = '\r' then rest else c :: rest
  | [] => []

/-- Every escape byte in the text begins a well-formed CSI sequence (the
hypothesis under which the cleaner removes every escape byte). -/
def escOnlyCsiFuel : Nat → Str → Bool
  | _, [] => true
  | 0, _ => false
  | fuel + 1, c :: rest =>
    if c = '\x1b' then
      match csiMatch rest with
      | some rest1 => escOnlyCsiFuel fuel rest1
      | none => false
    else escOnlyCsiFuel fuel rest

/-- Every escape byte in the text begins a well-formed CSI sequence. -/
def escOnlyCsi (l : Str) : Bool := escOnlyCsiFuel l.length l

/-- The sentinel `[CMD_BEGIN]`. -/
def cmdBeginLit : Str := lit "[CMD_BEGIN]"

/-- Remove every occurrence of a character (Python `replace(ch, "")`). -/
def pyDeleteChar (ch : Char) (s : Str) : Str := pyReplace [ch] [] s

/-- The echoed-command removal shared by both branches of
`_format_output_raw`: drop the first line when it equals the command after
stripping. -/
def stripEcho (commandOutput command : Str) : Str :=
  match splitOnChar '\n' commandOutput with
  | [] => commandOutput
  | l0 :: restLines =>
    if pyStrip l0 = pyStrip command then joinWith (lit "\n") restLines
    else commandOutput

/-- The 5000-character clip of `_format_output_raw`: keep the last 5000
characters and prepend `[Content Truncated]` when clipping occurred. -/
def clip5000 (commandOutput : Str) : Str :=
  if 5000 < commandOutput.length then
    lit "[Content Truncated]" ++ commandOutput.drop (commandOutput.length - 5000)
  else commandOutput

/-- The timeout message of `_format_output_raw`. -/
def timeoutMessageOf (timeout : Nat) (view : Bool) : Str :=
  if view then lit "Process running. Output so far:"
  else lit "The command is still running after " ++ natStr timeout
    ++ lit " seconds. Output so far:"

/-- `_format_output_raw` (with `use_relative_path = False`, under which
`_format_output` adds nothing): returns the formatted output together with
the new current directory when the sentinel was seen (the source assigns it
to `session.current_directory`). -/
def formatOutputRaw (rawOutput command currentDirectory : Str) (timeout : Nat)
    (view : Bool) : Str × Option Str :=
  let raw := cleanAnsiEscapeSequences rawOutput
  let formattedCommand := currentDirectory ++ lit "$ " ++ command
  if containsSub cmdBeginLit raw then
    let parts := splitOnStr cmdBeginLit raw
    let commandOutput0 := pyStrip (parts.getD 0 [])
    let newDirectory :=
      if 1 < parts.length then
        pyStrip (pyDeleteChar '\r' (pyDeleteChar '\n' (parts.getD 1 [])))
      else []
    let commandOutput := clip5000 (stripEcho commandOutput0 command)
    let newDir : Option Str := if newDirectory ≠ [] then some newDirectory else none
    (if commandOutput ≠ [] then formattedCommand ++ lit "\n" ++ commandOutput
     else formattedCommand, newDir)
  else
    let commandOutput := clip5000 (stripEcho (pyStrip raw) command)
    let timeoutMessage := timeoutMessageOf timeout view
    (if commandOutput ≠ [] then
       formattedCommand ++ lit "\n" ++ timeoutMessage ++ lit "\n" ++ commandOutput
     else formattedCommand ++ lit "\n" ++ timeoutMessage, none)

/-- The outcome of `session.child.expect(self.end_pattern, timeout)` inside
`_execute_command_in_session`: the sentinel arrived (with the captured
`child.before`), the expect timed out (with the partial `child.before`), or
the shell process ended. -/
inductive ExpectOutcome where
  | completedWith (before : Str)
  | timedOutWith (before : Str)
  | eofWith (message : Str)
  deriving DecidableEq

/-- `_execute_command_in_session`: send the command and wait for the
`[CMD_END]` sentinel. -/
def executeCommandInSession (s : TSession) (command : Str) (timeout : Nat)
    (o : ExpectOutcome) : SessionResultM × TSession :=
  let s0 := { s with lastCommand := command, state := SessState.running }
  match o with
  | .completedWith raw =>
    let s1 := { s0 with state := SessState.completed }
    let fo := formatOutputRaw raw command s1.currentDirectory timeout false
    let s2 := { s1 with currentDirectory := fo.2.getD s1.currentDirectory }
    let s3 := { s2 with history := s2.history ++ [fo.1] }
    (⟨true, fo.1 ++ lit "\n" ++ s3.currentDirectory ++ [ '$' ]⟩, s3)
  | .timedOutWith raw =>
    let s1 := { s0 with state := SessState.running }
    let fo := formatOutputRaw raw command s1.currentDirectory timeout false
    let s2 := { s1 with currentDirectory := fo.2.getD s1.currentDirectory }
    (⟨false, fo.1⟩, s2)
  | .eofWith m =>
    (⟨false, lit "Shell process ended: " ++ m⟩, s0)

/-- `_extract_current_directory_from_prompt`. -/
def extractCurrentDirectoryFromPrompt (promptOutput : Str) : Str :=
  pyDeleteChar '\r' (pyDeleteChar '\n' ((splitOnStr cmdBeginLit promptOutput).getD 1 []))

/-- `create_session` (local, `use_relative_path = False`): the spawn of the
shell and the initial prompt expect are external and arrive as `spawn`
(`Except.ok` carries the `child.before` of the prompt expect,
`Except.error` any exception raised during creation).  On success the
session is stored `READY` and `self.work_dir` is set; on failure the
session is returned in state `ERROR` and not stored. -/
def createSession (st : TMState) (sessionId : Str) (spawn : Except Str Str) :
    TSession × TMState :=
  match spawn with
  | .error _ => (⟨sessionId, false, SessState.error, [], [], []⟩, st)
  | .ok before =>
    let currentDirectory := extractCurrentDirectoryFromPrompt before
    let workDir := pyStrip ((splitOnChar ':' currentDirectory).getLastD [])
    let sess : TSession := ⟨sessionId, true, SessState.ready, [], [], currentDirectory⟩
    (sess, { sessionsSet st sessionId sess with workDir := workDir })

/-- The outcome of the one-second completion re-expect performed on a
session found `RUNNING` (only `pexpect.TIMEOUT` is caught there). -/
inductive ReExpect where
  | done (before : Str)
  | still (before : Str)
  deriving DecidableEq

/-- `shell_exec`.  A missing session is first created (`spawn` gives the
creation outcome); a session found `RUNNING` is given the one-second
re-expect (`prevO`); the `while` wait loop is sequentialised: a session
already `READY`/`COMPLETED` proceeds immediately, and otherwise (an `ERROR`
session was never stored) the re-fetch finds nothing and the call returns
`"Session {id} not ready"`. -/
def shellExec (st : TMState) (id command : Str) (execDir : Option Str)
    (timeout : Nat) (spawn : Except Str Str) (prevO : ReExpect)
    (o : ExpectOutcome) : SessionResultM × TMState :=
  let command := match execDir with
    | some d => lit "cd " ++ d ++ lit " && " ++ command
    | none => command
  let (session, st1) := match sessionsGet st id with
    | some s => (s, st)
    | none => createSession st id spawn
  if session.state = SessState.running then
    match prevO with
    | .done before =>
      let s1 := { session with state := SessState.completed }
      let fo := formatOutputRaw before s1.lastCommand s1.currentDirectory 1 false
      let s2 := { s1 with currentDirectory := fo.2.getD s1.currentDirectory }
      let s3 := { s2 with history := s2.history ++ [fo.1] }
      executeCommandInSession s3 command timeout o |> fun (r, s4) =>
        (r, sessionsSet st1 id s4)
    | .still before =>
      let s1 := { session with state := SessState.running }
      let fo := formatOutputRaw before s1.lastCommand s1.currentDirectory 1 true
      let s2 := { s1 with currentDirectory := fo.2.getD s1.currentDirectory }
      (⟨false, lit "Previous command " ++ s2.lastCommand
          ++ lit " is still running. Ensure it\x27s done or run on a new session.\n"
          ++ fo.1⟩,
       sessionsSet st1 id s2)
  else if session.state = SessState.ready ∨ session.state = SessState.completed then
    executeCommandInSession session command timeout o |> fun (r, s4) =>
      (r, sessionsSet st1 id s4)
  else
    (⟨false, lit "Session " ++ id ++ lit " not ready"⟩, st1)

/-- `shell_view`. -/
def shellView (st : TMState) (id : Str) (prevO : ReExpect) :
    SessionResultM × TMState :=
  match sessionsGet st id with
  | none => (⟨false, lit "Session " ++ id ++ lit " not found"⟩, st)
  | some session =>
    if session.state = SessState.completed ∨ session.state = SessState.ready then
      (⟨true, joinWith (lit "\n") session.history ++ lit "\n"
          ++ session.currentDirectory ++ [ '$' ]⟩, st)
    else
      match prevO with
      | .done before =>
        let s1 := { session with state := SessState.completed }
        let fo := formatOutputRaw before s1.lastCommand s1.currentDirectory 1 false
        let s2 := { s1 with currentDirectory := fo.2.getD s1.currentDirectory }
        let s3 := { s2 with history := s2.history ++ [fo.1] }
        (⟨true, joinWith (lit "\n") s3.history ++ lit "\n"
            ++ s3.currentDirectory ++ [ '$' ]⟩, sessionsSet st id s3)
      | .still before =>
        let s1 := { session with state := SessState.running }
        let fo := formatOutputRaw before s1.lastCommand s1.currentDirectory 1 true
        let s2 := { s1 with currentDirectory := fo.2.getD s1.currentDirectory }
        (⟨true, joinWith (lit "\n") (s2.history ++ [fo.1])⟩, sessionsSet st id s2)

/-- `shell_write_to_process` (the 3-second expect outcome is `o`;
`press_enter` selects `sendline` over `send` and does not affect the
modelled result). -/
def shellWriteToProcess (st : TMState) (id _inputText : Str)
    (_pressEnter : Bool) (o : ReExpect) : SessionResultM × TMState :=
  match sessionsGet st id with
  | none => (⟨false, lit "Session " ++ id ++ lit " not found"⟩, st)
  | some session =>
    if !session.hasChild then
      (⟨false, lit "No active process in session " ++ id⟩, st)
    else
      match o with
      | .done before =>
        let s1 := { session with state := SessState.completed }
        let fo := formatOutputRaw before s1.lastCommand s1.currentDirectory 3 false
        let s2 := { s1 with currentDirectory := fo.2.getD s1.currentDirectory }
        let s3 := { s2 with history := s2.history ++ [fo.1] }
        (⟨true, fo.1 ++ lit "\n" ++ s3.currentDirectory ++ [ '$' ]⟩,
         sessionsSet st id s3)
      | .still before =>
        let s1 := { session with state := SessState.running }
        let fo := formatOutputRaw before s1.lastCommand s1.currentDirectory 3 false
        let s2 := { s1 with currentDirectory := fo.2.getD s1.currentDirectory }
        (⟨false, fo.1⟩, sessionsSet st id s2)

/-- `shell_kill_process` (`killError` carries the message of an exception
raised while killing, in which case the session is not removed). -/
def shellKillProcess (st : TMState) (id : Str) (killError : Option Str) :
    SessionResultM × TMState :=
  match sessionsGet st id with
  | none => (⟨false, lit "Session " ++ id ++ lit " not found"⟩, st)
  | some session =>
    if session.hasChild then
      match killError with
      | some e => (⟨false, lit "Error killing process: " ++ e⟩, st)
      | none =>
        (⟨true, lit "Killed process in session " ++ id⟩, sessionsPop st id)
    else
      (⟨true, lit "Killed process in session " ++ id⟩, st)


/-! ## Public-URL synthesis and reverse-proxy routing
(`sandbox/docker_sandbox.py` and `docker/proxy_server/main.py`) -/

/-- The host part of the public URL synthesised by
`DockerSandbox.expose_port`: `{session_id}-{port}.{BASE_URL}`. -/
def exposePortHost (containerName : Str) (port : Nat) (baseDomain : Str) : Str :=
  containerName ++ '-' :: natStr port ++ '.' :: baseDomain

/-- `DockerSandbox.expose_port`: `http://{session_id}-{port}.{BASE_URL}`. -/
def exposePort (containerName : Str) (port : Nat) (baseDomain : Str) : Str :=
  lit "http://" ++ exposePortHost containerName port baseDomain

/-- The container-name/port extraction of `proxy` in the proxy server: start
from the `x-subdomain` header (default `"unknown_unknown"`), and when a
`Host` header is present take its left-most dot-separated label, split it on
dashes, and use the last token as the port and the dash-join of the rest as
the container name. -/
def proxyParse (xSubdomain host : Str) : Str × Str :=
  let parts0 := splitOnChar '-' xSubdomain
  let fallback := (joinWith (lit "-") parts0.dropLast, parts0.getLastD [])
  if host ≠ [] then
    let containerNamePort := splitOnChar '-' ((splitOnChar '.' host).getD 0 [])
    (joinWith (lit "-") containerNamePort.dropLast, containerNamePort.getLastD [])
  else fallback

/-- The target URL `proxy` forwards to:
`http://{container_name}:{port}/{service_path}`. -/
def proxyTargetUrl (xSubdomain host servicePath : Str) : Str :=
  let p := proxyParse xSubdomain host
  lit "http://" ++ p.1 ++ ':' :: p.2 ++ '/' :: servicePath

/-! ## `StrReplaceManager` (`utils/tool_client/manager/str_replace_manager.py`)

The manager is modelled with its constructor defaults
(`ignore_indentation_for_str_replace = False`, `expand_tabs = False`,
`use_relative_path = False`); `str_replace` then dispatches to
`_str_replace`.  A file is the pair of its current content and its per-file
undo stack (`self._file_history[path]`). -/

/-- The response record `StrReplaceResponse`. -/
structure StrReplaceResponse where
  success : Bool
  fileContent : Str
  deriving DecidableEq

/-- One file as the edit operations see it: its content on disk and its
undo stack. -/
structure FileState where
  content : Str
  undoStack : List Str
  deriving DecidableEq

/-- `SNIPPET_LINES`. -/
def snippetLines : Nat := 4

/-- `TRUNCATED_MESSAGE`. -/
def truncatedMessage : Str :=
  lit "<response clipped><NOTE>To save on context only part of this file has been shown to you. You should retry this tool after you have searched inside the file with `grep -n` in order to find the line numbers of what you are looking for.</NOTE>"

/-- `MAX_RESPONSE_LEN`. -/
def maxResponseLen : Nat := 200000

/-- `maybe_truncate` with the default `truncate_after`. -/
def maybeTruncate (content : Str) : Str :=
  if content.length ≤ maxResponseLen then content
  else content.take maxResponseLen ++ truncatedMessage

/-- Python `f"{n:6}"`: right-align in width 6. -/
def padLeft6 (n : Nat) : Str :=
  List.replicate (6 - (natStr n).length) ' ' ++ natStr n

/-- `_make_output` (with `expand_tabs = False`). -/
def makeOutput (fileContent fileDescriptor : Str) (totalLines initLine : Nat) : Str :=
  let fc := maybeTruncate fileContent
  let numbered := joinWith (lit "\n")
    ((splitOnChar '\n' fc).enum.map fun p =>
      padLeft6 (p.1 + initLine) ++ '\t' :: p.2)
  lit "Here\x27s the result of running `cat -n` on " ++ fileDescriptor ++ lit ":\n"
    ++ numbered ++ lit "\n" ++ lit "Total lines in file: " ++ natStr totalLines ++ lit "\n"

/-- The trailing sentence of every `str_replace` success message. -/
def reviewChangesText : Str :=
  lit "Review the changes and make sure they are as expected. Edit the file again if necessary."

/-- `_str_replace` (with `expand_tabs = False`), acting on the file state
and returning the response.  `new_str = None` is already normalised to the
empty string by the caller signature. -/
def strReplaceOp (st : FileState) (oldStr newStr displayPath : Str) :
    StrReplaceResponse × FileState :=
  let content := st.content
  if pyStrip oldStr = [] then
    if pyStrip content ≠ [] then
      (⟨false, lit "No replacement was performed, old_str is empty which is only allowed when the file is empty. The file "
          ++ displayPath ++ lit " is not empty."⟩, st)
    else
      let newContent := newStr
      let st1 : FileState := ⟨newContent, st.undoStack ++ [content]⟩
      let successMsg :=
        lit "The file " ++ displayPath ++ lit " has been edited. Here\x27s the new content:\n"
          ++ newContent
          ++ makeOutput newContent displayPath (splitOnChar '\n' newContent).length 1
          ++ reviewChangesText
      (⟨true, successMsg⟩, st1)
  else
    let occurrences := pyCount oldStr content
    if occurrences = 0 then
      (⟨false, lit "No replacement was performed, old_str \n ```\n" ++ oldStr
          ++ lit "\n```\n did not appear verbatim in " ++ displayPath ++ lit "."⟩, st)
    else if 1 < occurrences then
      let fileContentLines := splitOnChar '\n' content
      let lines := fileContentLines.enum.filterMap fun p =>
        if containsSub oldStr p.2 then some (p.1 + 1) else none
      (⟨false, lit "No replacement was performed. Multiple occurrences of old_str \n ```\n"
          ++ oldStr ++ lit "\n```\n in lines " ++ natListStr lines
          ++ lit ". Please ensure it is unique"⟩, st)
    else
      let newContent := pyReplace oldStr newStr content
      let st1 : FileState := ⟨newContent, st.undoStack ++ [content]⟩
      let replacementLine := pyCount (lit "\n") ((splitOnStr oldStr content).getD 0 [])
      let startLine := replacementLine - snippetLines
      let endLine := replacementLine + snippetLines + pyCount (lit "\n") newStr
      let snippet := joinWith (lit "\n")
        (pySlice (splitOnChar '\n' newContent) (startLine : Int) ((endLine : Int) + 1))
      let successMsg :=
        lit "The file " ++ displayPath ++ lit " has been edited. "
          ++ makeOutput snippet (lit "a snippet of " ++ displayPath)
              (splitOnChar '\n' newContent).length (startLine + 1)
          ++ reviewChangesText
      (⟨true, successMsg⟩, st1)

/-- `insert` (with `expand_tabs = False`).  `insert_line` is a Python
integer; negative or beyond the line count is rejected. -/
def insertOp (st : FileState) (insertLine : Int) (newStr displayPath : Str) :
    StrReplaceResponse × FileState :=
  let fileText := st.content
  let fileTextLines := splitOnChar '\n' fileText
  let nLinesFile := fileTextLines.length
  if insertLine < 0 ∨ (nLinesFile : Int) < insertLine then
    (⟨false, lit "Invalid `insert_line` parameter: " ++ intStr insertLine
        ++ lit ". It should be within the range of lines of the file: "
        ++ natListStr [0, nLinesFile]⟩, st)
  else
    let newStrLines := splitOnChar '\n' newStr
    let newFileTextLines :=
      pySlice fileTextLines 0 insertLine ++ newStrLines
        ++ pySliceFrom fileTextLines insertLine
    let snippetList :=
      pySlice fileTextLines (max 0 (insertLine - (snippetLines : Int))) insertLine
        ++ newStrLines
        ++ pySlice fileTextLines insertLine (insertLine + (snippetLines : Int))
    let newFileText := joinWith (lit "\n") newFileTextLines
    let snippet := joinWith (lit "\n") snippetList
    let st1 : FileState := ⟨newFileText, st.undoStack ++ [fileText]⟩
    let successMsg :=
      lit "The file " ++ displayPath ++ lit " has been edited. "
        ++ makeOutput snippet (lit "a snippet of the edited file")
            newFileTextLines.length (max 1 (insertLine - (snippetLines : Int) + 1)).toNat
        ++ lit "Review the changes and make sure they are as expected (correct indentation, no duplicate lines, etc). Edit the file again if necessary."
    (⟨true, successMsg⟩, st1)

/-- `undo_edit`: pop the last entry of the undo stack and restore it. -/
def undoEditOp (st : FileState) (displayPath : Str) :
    StrReplaceResponse × FileState :=
  if st.undoStack = [] then
    (⟨false, lit "No edit history found for " ++ displayPath ++ lit "."⟩, st)
  else
    let oldText := st.undoStack.getLastD []
    let st1 : FileState := ⟨oldText, st.undoStack.dropLast⟩
    (⟨true, lit "Last edit to " ++ displayPath ++ lit " undone successfully.\n"
        ++ makeOutput oldText displayPath (splitOnChar '\n' oldText).length 1⟩, st1)


/-! ## General lemmas about the Python string model -/

/-- `splitOnChar` never returns the empty list. -/
theorem splitOnChar_ne_nil (sep : Char) (l : Str) : splitOnChar sep l ≠ [] := by
  cases l with
  | nil => simp [splitOnChar]
  | cons c cs =>
    simp only [splitOnChar]
    cases h : splitOnChar sep cs with
    | nil => simp
    | cons g gs =>
      by_cases hc : c = sep <;> simp [hc]

/-- Splitting distributes over an occurrence of the separator. -/
theorem splitOnChar_append_sep (sep : Char) (x y : Str) :
    splitOnChar sep (x ++ sep :: y) = splitOnChar sep x ++ splitOnChar sep y := by
  induction x with
  | nil =>
    simp only [List.nil_append, splitOnChar]
    cases h : splitOnChar sep y with
    | nil => exact absurd h (splitOnChar_ne_nil sep y)
    | cons g gs => simp
  | cons a x ih =>
    cases h : splitOnChar sep x with
    | nil => exact absurd h (splitOnChar_ne_nil sep x)
    | cons g gs =>
      have hstep : splitOnChar sep ((a :: x) ++ sep :: y) =
          (match splitOnChar sep (x ++ sep :: y) with
            | [] => [[]]
            | g :: gs => if a = sep then [] :: g :: gs else (a :: g) :: gs) := rfl
      have hstep2 : splitOnChar sep (a :: x) =
          (match splitOnChar sep x with
            | [] => [[]]
            | g :: gs => if a = sep then [] :: g :: gs else (a :: g) :: gs) := rfl
      rw [hstep, ih, h, hstep2, h]
      by_cases ha : a = sep <;> simp [ha]

/-- Splitting a separator-free string yields that single group. -/
theorem splitOnChar_of_not_mem (sep : Char) (l : Str) (h : sep ∉ l) :
    splitOnChar sep l = [l] := by
  induction l with
  | nil => rfl
  | cons c cs ih =>
    have hc : c ≠ sep := fun hc => h (hc ▸ List.mem_cons_self c cs)
    have hcs : sep ∉ cs := fun hm => h (List.mem_cons_of_mem c hm)
    simp [splitOnChar, ih hcs, hc]

/-- Joining with the separator undoes `splitOnChar`. -/
theorem joinWith_splitOnChar (sep : Char) (l : Str) :
    joinWith [sep] (splitOnChar sep l) = l := by
  induction l with
  | nil => rfl
  | cons c cs ih =>
    simp only [splitOnChar]
    cases h : splitOnChar sep cs with
    | nil => exact absurd h (splitOnChar_ne_nil sep cs)
    | cons g gs =>
      rw [h] at ih
      by_cases hc : c = sep
      · subst hc
        simp only [if_pos rfl]
        cases gs with
        | nil => simpa [joinWith] using congrArg (c :: ·) ih
        | cons g2 t => simpa [joinWith] using congrArg (c :: ·) ih
      · simp only [if_neg hc]
        cases gs with
        | nil => simpa [joinWith] using congrArg (c :: ·) ih
        | cons g2 t => simpa [joinWith] using congrArg (c :: ·) ih

/-- `List.getLastD` of a list with an appended singleton. -/
theorem getLastD_append_singleton (l : List α) (a d : α) :
    (l ++ [a]).getLastD d = a := by
  induction l with
  | nil => rfl
  | cons b t ih =>
    cases t with
    | nil => rfl
    | cons c u => simpa using ih

/-- Every character that `Nat.toDigitsCore` in base 10 prepends is a digit. -/
theorem toDigitsCore_digits (fuel : Nat) :
    ∀ (n : Nat) (ds : List Char), (∀ c ∈ ds, c.isDigit = true) →
      ∀ c ∈ Nat.toDigitsCore 10 fuel n ds, c.isDigit = true := by
  have hdigit : ∀ m : Nat, m < 10 → (Nat.digitChar m).isDigit = true := by
    intro m hm
    interval_cases m <;> decide
  induction fuel with
  | zero => intro n ds hds c hc; exact hds c hc
  | succ f ih =>
    intro n ds hds c hc
    rw [Nat.toDigitsCore] at hc
    split at hc
    · rcases List.mem_cons.mp hc with h | h
      · exact h ▸ hdigit _ (Nat.mod_lt _ (by norm_num))
      · exact hds c h
    · refine ih _ _ ?_ c hc
      intro c2 hc2
      rcases List.mem_cons.mp hc2 with h | h
      · exact h ▸ hdigit _ (Nat.mod_lt _ (by norm_num))
      · exact hds c2 h

/-- Every character of `str(port)` for a natural number is a digit. -/
theorem natStr_digits (n : Nat) : ∀ c ∈ natStr n, c.isDigit = true := by
  intro c hc
  exact toDigitsCore_digits (n + 1) n [] (by simp) c hc

/-- The decimal rendering of a natural number contains no dot. -/
theorem dot_not_mem_natStr (n : Nat) : '.' ∉ natStr n := by
  intro h
  exact absurd (natStr_digits n '.' h) (by decide)

/-- The decimal rendering of a natural number contains no dash. -/
theorem dash_not_mem_natStr (n : Nat) : '-' ∉ natStr n := by
  intro h
  exact absurd (natStr_digits n '-' h) (by decide)


/-! ## Claim C4: proxy parse inverts public-URL synthesis -/

/-- The public-URL label splits into the groups of the container name
followed by the port digits. -/
theorem splitOnChar_dash_label (c : Str) (p : Nat) :
    splitOnChar '-' (c ++ '-' :: natStr p) = splitOnChar '-' c ++ [natStr p] := by
  rw [splitOnChar_append_sep, splitOnChar_of_not_mem '-' (natStr p) (dash_not_mem_natStr p)]

/-- **C4** (confirmed).  For every container name containing no dot and
every port, the Host-header parse of the reverse proxy is a left inverse of
the public-URL synthesis of the Docker sandbox: parsing the left-most
dot-separated label of the host of `http://{c}-{p}.{base}` produced by
`expose_port` recovers exactly the container name and port, and the request
is forwarded to `http://{c}:{p}/{path}`. -/
theorem proxyParse_exposePort_roundtrip (containerName baseDomain xSubdomain servicePath : Str)
    (port : Nat) (hdot : '.' ∉ containerName) :
    proxyParse xSubdomain (exposePortHost containerName port baseDomain) =
      (containerName, natStr port) ∧
    proxyTargetUrl xSubdomain (exposePortHost containerName port baseDomain) servicePath =
      lit "http://" ++ containerName ++ ':' :: natStr port ++ '/' :: servicePath := by
  have hlabel : '.' ∉ containerName ++ '-' :: natStr port := by
    intro hmem
    rcases List.mem_append.mp hmem with h | h
    · exact hdot h
    · rcases List.mem_cons.mp h with h | h
      · exact absurd h (by decide)
      · exact dot_not_mem_natStr port h
  have hassoc : exposePortHost containerName port baseDomain =
      (containerName ++ '-' :: natStr port) ++ '.' :: baseDomain := by
    simp [exposePortHost]
  have hne : exposePortHost containerName port baseDomain ≠ [] := by
    rw [hassoc]
    intro h
    exact absurd (List.append_eq_nil.mp h).2 (by simp)
  have hsplit : (splitOnChar '.' (exposePortHost containerName port baseDomain)).getD 0 [] =
      containerName ++ '-' :: natStr port := by
    rw [hassoc, splitOnChar_append_sep, splitOnChar_of_not_mem '.' _ hlabel]
    rfl
  have hparse : proxyParse xSubdomain (exposePortHost containerName port baseDomain) =
      (containerName, natStr port) := by
    rw [proxyParse, if_pos hne, hsplit, splitOnChar_dash_label]
    dsimp only
    rw [List.dropLast_concat, getLastD_append_singleton]
    have : joinWith (lit "-") (splitOnChar '-' containerName) = containerName :=
      joinWith_splitOnChar '-' containerName
    rw [show lit "-" = ['-'] from rfl] at this ⊢
    rw [this]
  refine ⟨hparse, ?_⟩
  rw [proxyTargetUrl, hparse]

/-- **C4 witness**: the round trip at the concrete sandbox `abc-def`,
port 8080, base domain `example`. -/
theorem proxyParse_exposePort_roundtrip_witness :
    proxyParse (lit "unknown_unknown") (exposePortHost (lit "abc-def") 8080 (lit "example")) =
      (lit "abc-def", natStr 8080) ∧
    proxyTargetUrl (lit "unknown_unknown") (exposePortHost (lit "abc-def") 8080 (lit "example"))
        (lit "ping") =
      lit "http://" ++ lit "abc-def" ++ ':' :: natStr 8080 ++ '/' :: lit "ping" :=
  proxyParse_exposePort_roundtrip (lit "abc-def") (lit "example") (lit "unknown_unknown")
    (lit "ping") 8080 (by decide)


/-! ## Claim C6: ANSI stripping -/

/-- A successful CSI match strictly shortens the input. -/
theorem csiMatch_length {l l1 : Str} (h : csiMatch l = some l1) :
    l1.length < l.length := by
  match l with
  | [] => simp [csiMatch] at h
  | c :: rest =>
    rw [csiMatch] at h
    by_cases hc : c = '['
    · rw [if_pos hc] at h
      cases h2 : (rest.dropWhile isCsiParam).dropWhile isCsiInter with
      | nil => rw [h2] at h; simp at h
      | cons f rest3 =>
        rw [h2] at h
        dsimp only at h
        by_cases hf : isCsiFinal f = true
        · rw [if_pos hf] at h
          have hl1 : l1 = rest3 := by injection h with h1; exact h1.symm
          have hle1 : (f :: rest3).length ≤ (rest.dropWhile isCsiParam).length := by
            rw [← h2]; exact (List.dropWhile_sublist _).length_le
          have hle2 : (rest.dropWhile isCsiParam).length ≤ rest.length :=
            (List.dropWhile_sublist _).length_le
          subst hl1
          simp only [List.length_cons] at hle1 ⊢
          omega
        · rw [if_neg hf] at h; simp at h
    · rw [if_neg hc] at h; simp at h

/-- If every escape byte begins a well-formed CSI sequence, the regex
substitution removes every escape byte. -/
theorem cleanAnsiFuel_no_esc (fuel : Nat) :
    ∀ l : Str, l.length ≤ fuel → escOnlyCsiFuel fuel l = true →
      ∀ c ∈ cleanAnsiFuel fuel l, c ≠ '\x1b' := by
  induction fuel with
  | zero =>
    intro l hl _ c hc
    have : l = [] := List.length_eq_zero.mp (Nat.le_zero.mp hl)
    subst this
    simp [cleanAnsiFuel] at hc
  | succ f ih =>
    intro l hl h c hc
    match l with
    | [] => simp [cleanAnsiFuel] at hc
    | ch :: rest =>
      have hrest : rest.length ≤ f := by
        simp only [List.length_cons] at hl; omega
      by_cases hch : ch = '\x1b'
      · rw [cleanAnsiFuel, if_pos hch] at hc
        rw [escOnlyCsiFuel, if_pos hch] at h
        cases hm : csiMatch rest with
        | none => rw [hm] at h; exact absurd h (by simp)
        | some rest1 =>
          rw [hm] at hc h
          have hlen : rest1.length ≤ f := by
            have h1 := csiMatch_length hm
            omega
          exact ih rest1 hlen h c hc
      · rw [cleanAnsiFuel, if_neg hch] at hc
        rw [escOnlyCsiFuel, if_neg hch] at h
        rcases List.mem_cons.mp hc with hceq | hcmem
        · subst hceq; exact hch
        · exact ih rest hrest h c hcmem

/-- **C6** (amended).  The manager regex matches only CSI escape sequences,
so not every kind of ANSI escape sequence is stripped; but whenever every
escape byte of the captured raw output begins a well-formed CSI sequence,
the output of `_clean_ansi_escape_sequences` (which `_format_output_raw`
embeds in the output returned to callers of a completed `shell_exec`)
contains no escape byte. -/
theorem cleanAnsi_csi_only_no_esc (l : Str) (h : escOnlyCsi l = true) :
    ∀ c ∈ cleanAnsiEscapeSequences l, c ≠ '\x1b' := by
  have hclean : ∀ c2 ∈ cleanAnsi l, c2 ≠ '\x1b' :=
    cleanAnsiFuel_no_esc l.length l le_rfl h
  intro c hc
  apply hclean
  rw [cleanAnsiEscapeSequences] at hc
  cases hcl : cleanAnsi l with
  | nil => rw [hcl] at hc; simp at hc
  | cons c0 cs =>
    rw [hcl] at hc
    dsimp only at hc
    split_ifs at hc with h0
    · exact List.mem_cons_of_mem _ hc
    · exact hc

/-- **C6 witness**: a raw output consisting of CSI colour sequences around
text is cleaned to escape-free text. -/
theorem cleanAnsi_csi_only_no_esc_witness :
    escOnlyCsi (lit "\x1b[31mred\x1b[0m") = true ∧
    ∀ c ∈ cleanAnsiEscapeSequences (lit "\x1b[31mred\x1b[0m"), c ≠ '\x1b' :=
  ⟨by decide, cleanAnsi_csi_only_no_esc (lit "\x1b[31mred\x1b[0m") (by decide)⟩

/-- **C6 counterexample**: an OSC (operating-system-command) ANSI escape
sequence in the captured output is not stripped — its escape byte survives
`_clean_ansi_escape_sequences` — refuting the claim that every ANSI escape
sequence of any kind is removed. -/
theorem cleanAnsi_osc_counterexample :
    '\x1b' ∈ cleanAnsiEscapeSequences (lit "\x1b]0;title\x07") ∧
    cleanAnsiEscapeSequences (lit "\x1b]0;title\x07") = lit "\x1b]0;title\x07" := by
  constructor
  · decide
  · decide


/-! ## Claim C7: shell_exec timeout behaviour -/

/-- **C7** (amended).  When the `[CMD_END]` sentinel is not observed within
the timeout and the captured partial output (after ANSI cleaning) does not
itself contain the `[CMD_BEGIN]` sentinel, `shell_exec` returns
`success = false`, leaves the session `RUNNING`, and returns the partial
command output clipped to its last 5000 characters (prefixed
`[Content Truncated]` exactly when clipping occurred, per `clip5000`)
beneath the message that the command is still running after the timeout. -/
theorem shellExec_timeout_partial_output (s : TSession) (command raw : Str) (timeout : Nat)
    (h : containsSub cmdBeginLit (cleanAnsiEscapeSequences raw) = false) :
    (executeCommandInSession s command timeout (.timedOutWith raw)).1.success = false ∧
    (executeCommandInSession s command timeout (.timedOutWith raw)).2.state = SessState.running ∧
    (∃ pre post, (executeCommandInSession s command timeout (.timedOutWith raw)).1.output =
        pre ++ (lit "The command is still running after " ++ natStr timeout ++ lit " seconds")
          ++ post) ∧
    (executeCommandInSession s command timeout (.timedOutWith raw)).1.output =
      s.currentDirectory ++ lit "$ " ++ command ++ lit "\n" ++ timeoutMessageOf timeout false
        ++ (if clip5000 (stripEcho (pyStrip (cleanAnsiEscapeSequences raw)) command) = [] then []
            else lit "\n" ++ clip5000 (stripEcho (pyStrip (cleanAnsiEscapeSequences raw)) command)) := by
  have hfo : formatOutputRaw raw command s.currentDirectory timeout false =
      (s.currentDirectory ++ lit "$ " ++ command ++ lit "\n" ++ timeoutMessageOf timeout false
        ++ (if clip5000 (stripEcho (pyStrip (cleanAnsiEscapeSequences raw)) command) = [] then []
            else lit "\n" ++ clip5000 (stripEcho (pyStrip (cleanAnsiEscapeSequences raw)) command)),
       none) := by
    rw [formatOutputRaw]
    dsimp only
    rw [if_neg (by simp [h])]
    by_cases hc : clip5000 (stripEcho (pyStrip (cleanAnsiEscapeSequences raw)) command) = []
    · rw [if_neg (by simp [hc]), if_pos hc]
      simp
    · rw [if_pos hc, if_neg hc]
      simp [List.append_assoc]
  refine ⟨rfl, rfl, ?_, ?_⟩
  · show ∃ pre post, (formatOutputRaw raw command s.currentDirectory timeout false).1 = _
    rw [hfo]
    dsimp only
    refine ⟨s.currentDirectory ++ lit "$ " ++ command ++ lit "\n",
      lit ". Output so far:"
        ++ (if clip5000 (stripEcho (pyStrip (cleanAnsiEscapeSequences raw)) command) = [] then []
            else lit "\n" ++ clip5000 (stripEcho (pyStrip (cleanAnsiEscapeSequences raw)) command)),
      ?_⟩
    have hmsg : timeoutMessageOf timeout false =
        (lit "The command is still running after " ++ natStr timeout ++ lit " seconds")
          ++ lit ". Output so far:" := by
      rw [timeoutMessageOf]
      simp [lit, List.append_assoc]
    rw [hmsg]
    simp [List.append_assoc]
  · show (formatOutputRaw raw command s.currentDirectory timeout false).1 = _
    rw [hfo]

/-- The session used in the C7 concrete instances. -/
def c7sess : TSession := ⟨lit "s", true, SessState.ready, lit "c0", [], lit "/w"⟩

/-- **C7 witness**: a one-second timeout with partial output `partial out`
for `sleep 10`. -/
theorem shellExec_timeout_partial_output_witness :
    containsSub cmdBeginLit (cleanAnsiEscapeSequences (lit "partial out")) = false ∧
    ((executeCommandInSession c7sess (lit "sleep 10") 1 (.timedOutWith (lit "partial out"))).1.success = false ∧
     (executeCommandInSession c7sess (lit "sleep 10") 1 (.timedOutWith (lit "partial out"))).2.state = SessState.running ∧
     (∃ pre post, (executeCommandInSession c7sess (lit "sleep 10") 1 (.timedOutWith (lit "partial out"))).1.output =
        pre ++ (lit "The command is still running after " ++ natStr 1 ++ lit " seconds") ++ post) ∧
     (executeCommandInSession c7sess (lit "sleep 10") 1 (.timedOutWith (lit "partial out"))).1.output =
      c7sess.currentDirectory ++ lit "$ " ++ lit "sleep 10" ++ lit "\n" ++ timeoutMessageOf 1 false
        ++ (if clip5000 (stripEcho (pyStrip (cleanAnsiEscapeSequences (lit "partial out"))) (lit "sleep 10")) = [] then []
            else lit "\n" ++ clip5000 (stripEcho (pyStrip (cleanAnsiEscapeSequences (lit "partial out"))) (lit "sleep 10")))) :=
  ⟨by decide,
   shellExec_timeout_partial_output c7sess (lit "sleep 10") (lit "partial out") 1 (by decide)⟩

/-- **C7 counterexample**: when the partial output captured at the timeout
contains the `[CMD_BEGIN]` sentinel (for example because the command echoed
it), `_format_output_raw` takes the completed-command branch and the
returned output does not include the still-running message the claim
requires for every timed-out `shell_exec`. -/
theorem shellExec_timeout_counterexample :
    (executeCommandInSession c7sess (lit "c") 1
        (.timedOutWith (lit "x[CMD_BEGIN]\nu@h:/w2\n"))).1.success = false ∧
    containsSub (lit "still running")
      ((executeCommandInSession c7sess (lit "c") 1
        (.timedOutWith (lit "x[CMD_BEGIN]\nu@h:/w2\n"))).1.output) = false := by
  decide

/-! ## Claim C10: unknown session ids -/

/-- Looking up a freshly stored session. -/
theorem sessionsGet_set (st : TMState) (id : Str) (s : TSession) :
    sessionsGet (sessionsSet st id s) id = some s := by
  simp [sessionsGet, sessionsSet, List.lookup]

/-- **C10** (confirmed).  `shell_exec` with an unknown session id does not
fail: it creates the session under that id (provided the spawn succeeds)
and executes the command in it, storing the updated session; by contrast
`shell_view`, `shell_write_to_process` and `shell_kill_process` return
`success = False` with a `Session {id} not found` message. -/
theorem shellExec_unknown_id (st : TMState) (id command before inputText : Str)
    (pressEnter : Bool) (timeout : Nat) (prevO : ReExpect) (o : ExpectOutcome)
    (killError : Option Str) (hmiss : sessionsGet st id = none) :
    (shellExec st id command none timeout (.ok before) prevO o =
      ((executeCommandInSession (createSession st id (.ok before)).1 command timeout o).1,
       sessionsSet (createSession st id (.ok before)).2 id
         (executeCommandInSession (createSession st id (.ok before)).1 command timeout o).2)) ∧
    sessionsGet (shellExec st id command none timeout (.ok before) prevO o).2 id =
      some (executeCommandInSession (createSession st id (.ok before)).1 command timeout o).2 ∧
    shellView st id prevO = (⟨false, lit "Session " ++ id ++ lit " not found"⟩, st) ∧
    shellWriteToProcess st id inputText pressEnter prevO =
      (⟨false, lit "Session " ++ id ++ lit " not found"⟩, st) ∧
    shellKillProcess st id killError = (⟨false, lit "Session " ++ id ++ lit " not found"⟩, st) := by
  have hexec : shellExec st id command none timeout (.ok before) prevO o =
      ((executeCommandInSession (createSession st id (.ok before)).1 command timeout o).1,
       sessionsSet (createSession st id (.ok before)).2 id
         (executeCommandInSession (createSession st id (.ok before)).1 command timeout o).2) := by
    rw [shellExec]
    dsimp only
    rw [hmiss]
    dsimp only [createSession]
    rw [if_neg (by simp), if_pos (Or.inl rfl)]
  refine ⟨hexec, ?_, ?_, ?_, ?_⟩
  · rw [hexec]
    exact sessionsGet_set _ _ _
  · rw [shellView, hmiss]
  · rw [shellWriteToProcess, hmiss]
  · rw [shellKillProcess.eq_def, hmiss]

/-- **C10 witness**: on an empty manager, `shell_exec` under id `s1`
creates and executes, while the other three operations report the session
as not found. -/
theorem shellExec_unknown_id_witness :
    (shellExec ⟨[], []⟩ (lit "s1") (lit "ls") none 30
        (.ok (lit "[CMD_BEGIN]\nuser@host:/w\n")) (.still [])
        (.completedWith (lit "out\n[CMD_BEGIN]\nuser@host:/w\n")) =
      ((executeCommandInSession
          (createSession ⟨[], []⟩ (lit "s1") (.ok (lit "[CMD_BEGIN]\nuser@host:/w\n"))).1
          (lit "ls") 30 (.completedWith (lit "out\n[CMD_BEGIN]\nuser@host:/w\n"))).1,
       sessionsSet (createSession ⟨[], []⟩ (lit "s1") (.ok (lit "[CMD_BEGIN]\nuser@host:/w\n"))).2
         (lit "s1")
         (executeCommandInSession
          (createSession ⟨[], []⟩ (lit "s1") (.ok (lit "[CMD_BEGIN]\nuser@host:/w\n"))).1
          (lit "ls") 30 (.completedWith (lit "out\n[CMD_BEGIN]\nuser@host:/w\n"))).2)) ∧
    sessionsGet (shellExec ⟨[], []⟩ (lit "s1") (lit "ls") none 30
        (.ok (lit "[CMD_BEGIN]\nuser@host:/w\n")) (.still [])
        (.completedWith (lit "out\n[CMD_BEGIN]\nuser@host:/w\n"))).2 (lit "s1") =
      some (executeCommandInSession
          (createSession ⟨[], []⟩ (lit "s1") (.ok (lit "[CMD_BEGIN]\nuser@host:/w\n"))).1
          (lit "ls") 30 (.completedWith (lit "out\n[CMD_BEGIN]\nuser@host:/w\n"))).2 ∧
    shellView ⟨[], []⟩ (lit "s1") (.still []) =
      (⟨false, lit "Session " ++ lit "s1" ++ lit " not found"⟩, ⟨[], []⟩) ∧
    shellWriteToProcess ⟨[], []⟩ (lit "s1") (lit "y") true (.still []) =
      (⟨false, lit "Session " ++ lit "s1" ++ lit " not found"⟩, ⟨[], []⟩) ∧
    shellKillProcess ⟨[], []⟩ (lit "s1") none =
      (⟨false, lit "Session " ++ lit "s1" ++ lit " not found"⟩, ⟨[], []⟩) :=
  shellExec_unknown_id ⟨[], []⟩ (lit "s1") (lit "ls") (lit "[CMD_BEGIN]\nuser@host:/w\n")
    (lit "y") true 30 (.still []) (.completedWith (lit "out\n[CMD_BEGIN]\nuser@host:/w\n"))
    none (by decide)


/-! ## Claim C2: multiple tool calls in one reviewer turn -/

/-- An LLM oracle that answers every turn with two tool calls. -/
def c2gen : List Turn → List Block := fun _ =>
  [Block.toolCall (lit "1") (lit "echo") (lit "a"),
   Block.toolCall (lit "2") (lit "ls") (lit "b")]

/-- **C2** (amended).  When the model response of a reviewer turn contains
more than one pending tool call, the loop raises
`ValueError("Only one tool call per turn is supported")`, which propagates
out of the loop and aborts the run: the turn is not retried. -/
theorem runImplLoop_multi_tool_call_raises (llmGen : List Turn → List Block)
    (runTool : Block → Str) (truncate : List Turn → List Turn) (n : Nat)
    (history : List Turn)
    (h : 1 < (pendingToolCallsOf (llmGen (truncate history))).length) :
    runImplLoop llmGen runTool truncate (n + 1) history =
      .error (lit "Only one tool call per turn is supported") := by
  have hne : ¬(llmGen (truncate history) = []) := by
    intro he
    rw [he] at h
    simp [pendingToolCallsOf] at h
  rw [runImplLoop]
  dsimp only
  rw [if_neg hne, if_pos h]

/-- **C2 witness**: the raise at full fuel (`max_turns = 200`) from the
empty reviewer history. -/
theorem runImplLoop_multi_tool_call_raises_witness :
    runImplLoop c2gen (fun _ => []) id 200 [] =
      .error (lit "Only one tool call per turn is supported") :=
  runImplLoop_multi_tool_call_raises c2gen (fun _ => []) id 199 [] (by decide)

/-- **C2 counterexample**: a reviewer run whose first model response holds
two tool calls ends in the propagated `ValueError` instead of failing the
turn recoverably and retrying — the claim that the exception does not
propagate out of the loop is false. -/
theorem runImplLoop_multi_tool_call_counterexample :
    runImplLoop c2gen (fun _ => []) id 200 [[Block.textPrompt (lit "review this")]] =
      .error (lit "Only one tool call per turn is supported") ∧
    ∀ out : ToolImplOutput,
      runImplLoop c2gen (fun _ => []) id 200 [[Block.textPrompt (lit "review this")]] ≠ .ok out := by
  have h1 : runImplLoop c2gen (fun _ => []) id 200 [[Block.textPrompt (lit "review this")]] =
      .error (lit "Only one tool call per turn is supported") := rfl
  refine ⟨h1, fun out hout => ?_⟩
  rw [h1] at hout
  exact Except.noConfusion hout

/-! ## Claim C3: at most one turn in the summarization range -/

/-- The LLM oracle used by the C3 concrete instances. -/
def c3client : LLMGen := fun _ => .ok []

/-- **C3** (amended).  Strategy A (thinking blocks present) is a no-op when
its summarization range has at most one turn; Strategy B (no thinking
blocks) is a no-op only when its forgotten range is empty — with exactly
one forgotten turn it still summarizes (see the counterexample). -/
theorem applyTruncation_small_range_noop (cfg : CMConfig) (client : LLMGen) (ml : List Turn) :
    (hasThinkingBlocks ml = true → (eventsToSummarizeA cfg ml).length ≤ 1 →
      applyTruncation cfg client ml = ml) ∧
    (hasThinkingBlocks ml = false → forgottenEventsB cfg ml = [] →
      applyTruncation cfg client ml = ml) := by
  constructor
  · intro ht hle
    rw [applyTruncation, if_pos ht, applyTruncationWithThinkingBlocks]
    by_cases h0 : findLastTextPromptIndex ml ≤ 0
    · rw [if_pos h0]
    · rw [if_neg h0, if_pos hle]
  · intro ht hf
    rw [applyTruncation, if_neg (by simp [ht]), applyTruncationWithoutThinkingBlocks]
    rw [if_pos hf]

/-- **C3 witness**: a three-turn history with a thinking block whose
summarization range is a single turn, and a one-turn history without
thinking blocks whose forgotten range is empty; both are left unchanged. -/
theorem applyTruncation_small_range_noop_witness :
    applyTruncation defaultCMConfig c3client
        [[Block.textPrompt (lit "a")], [Block.thinkingBlock (lit "t")], [Block.textPrompt (lit "b")]] =
      [[Block.textPrompt (lit "a")], [Block.thinkingBlock (lit "t")], [Block.textPrompt (lit "b")]] ∧
    applyTruncation defaultCMConfig c3client [[Block.textPrompt (lit "a")]] =
      [[Block.textPrompt (lit "a")]] :=
  ⟨(applyTruncation_small_range_noop defaultCMConfig c3client _).1 (by decide) (by decide),
   (applyTruncation_small_range_noop defaultCMConfig c3client _).2 (by decide) (by decide)⟩

/-- **C3 counterexample**: a two-turn history without thinking blocks has a
summarization range of exactly one turn, yet `apply_truncation` is not a
no-op: Strategy B only skips an empty range. -/
theorem applyTruncation_single_turn_counterexample :
    hasThinkingBlocks [[Block.textPrompt (lit "a")], [Block.textPrompt (lit "b")]] = false ∧
    (forgottenEventsB defaultCMConfig
        [[Block.textPrompt (lit "a")], [Block.textPrompt (lit "b")]]).length = 1 ∧
    applyTruncation defaultCMConfig c3client
        [[Block.textPrompt (lit "a")], [Block.textPrompt (lit "b")]] ≠
      [[Block.textPrompt (lit "a")], [Block.textPrompt (lit "b")]] := by
  refine ⟨by decide, by decide, by decide⟩

/-! ## Claim C1: previous-summary detection in Strategy B -/

/-- `pyIdx` at a natural (non-negative) index clamps to the length. -/
theorem pyIdx_natCast (len n : Nat) : pyIdx len (n : Int) = min n len := by
  rw [pyIdx, if_neg (by simp)]
  simp

/-- Dropping `min n len` equals dropping `n`. -/
theorem drop_min_length (l : List α) (n : Nat) : l.drop (min n l.length) = l.drop n := by
  rcases le_total n l.length with h | h
  · rw [min_eq_left h]
  · rw [min_eq_right h, List.drop_length, (List.drop_eq_nil_of_le h).symm]

/-- Dropping after taking is taking after dropping. -/
theorem drop_take_comm (l : List α) (a b : Nat) :
    (l.take b).drop a = (l.drop a).take (b - a) := by
  rcases le_total a b with h | h
  · rw [List.take_drop, Nat.add_sub_cancel' h]
  · rw [Nat.sub_eq_zero_of_le h, List.take_zero]
    refine List.drop_eq_nil_of_le ?_
    calc (l.take b).length = min b l.length := List.length_take b l
    _ ≤ b := min_le_left _ _
    _ ≤ a := h

/-- **C1** (amended).  In Strategy B, when the turn immediately after the
kept head begins with a `TextPrompt` block whose text starts with
`"Conversation Summary:"`, the turn is treated as the previous summary:
its text becomes `summary_content`, the forgotten events start only after
it, and the prompt handed to the summarization LLM carries the text (marker
stripped, clipped to `max_event_length`) inside the `<PREVIOUS SUMMARY>`
delimiter.  (The `TextResult` summary turns the manager itself produces are
not detected — see the counterexample.) -/
theorem prevSummary_textPrompt_chained (cfg : CMConfig) (ml : List Turn)
    (t : Str) (rest : Turn)
    (hlen : cfg.keepFirst < ml.length)
    (hturn : ml.getD cfg.keepFirst [] = Block.textPrompt t :: rest)
    (hpre : (lit "Conversation Summary:").isPrefixOf t = true) :
    summaryContentB cfg ml = t ∧
    (∃ k, forgottenEventsB cfg ml = (ml.drop (cfg.keepFirst + 1)).take k) ∧
    (∃ post, generateSummaryPrompt cfg (forgottenEventsB cfg ml) (summaryContentB cfg ml) =
        summaryPromptText ++ lit "<PREVIOUS SUMMARY>\n"
          ++ truncateContent cfg (pyReplace (lit "Conversation Summary: ") [] t)
          ++ lit "\n</PREVIOUS SUMMARY>\n\n" ++ post) := by
  have hprev : hasPrevSummaryB cfg ml = true := by
    rw [hasPrevSummaryB, hturn]
    simp [hlen, hpre]
  have hcontent : summaryContentB cfg ml = t := by
    rw [summaryContentB, if_pos hprev, hturn]
    rfl
  refine ⟨hcontent, ?_, ?_⟩
  · rw [forgottenEventsB]
    rw [summaryStartIdxB, if_pos hprev]
    by_cases he : 0 < eventsFromTailB cfg ml
    · rw [if_pos he]
      exact ⟨_, by rw [pySlice, pyIdx_natCast, drop_take_comm, drop_min_length]⟩
    · rw [if_neg he]
      refine ⟨(ml.drop (cfg.keepFirst + 1)).length, ?_⟩
      rw [pySliceFrom, pyIdx_natCast, drop_min_length, List.take_length]
  · have htne : t ≠ lit "No events summarized" := by
      intro he
      rw [he] at hpre
      exact absurd hpre (by decide)
    rw [hcontent, generateSummaryPrompt]
    rw [prevSummaryForPrompt, if_pos htne]
    refine ⟨((forgottenEventsB cfg ml).enum.map fun p =>
        lit "<EVENT id=" ++ natStr p.1 ++ lit ">\n"
          ++ truncateContent cfg (messageListToString p.2) ++ lit "\n</EVENT>\n").flatten
      ++ lit "\nNow summarize the events using the rules above.", ?_⟩
    simp [List.append_assoc]

/-- The history used by the C1 witness: the prior summary sits in a
`TextPrompt` turn right after the head. -/
def c1wml : List Turn := [[Block.textPrompt (lit "h")],
  [Block.textPrompt (lit "Conversation Summary: old")],
  [Block.textPrompt (lit "a")], [Block.textResult (lit "b")],
  [Block.textPrompt (lit "c")], [Block.textResult (lit "d")]]

/-- **C1 witness**: the chained-summary bookkeeping at a concrete
six-turn history. -/
theorem prevSummary_textPrompt_chained_witness :
    summaryContentB defaultCMConfig c1wml = lit "Conversation Summary: old" ∧
    (∃ k, forgottenEventsB defaultCMConfig c1wml = (c1wml.drop 2).take k) ∧
    (∃ post, generateSummaryPrompt defaultCMConfig (forgottenEventsB defaultCMConfig c1wml)
        (summaryContentB defaultCMConfig c1wml) =
      summaryPromptText ++ lit "<PREVIOUS SUMMARY>\n"
        ++ truncateContent defaultCMConfig
            (pyReplace (lit "Conversation Summary: ") [] (lit "Conversation Summary: old"))
        ++ lit "\n</PREVIOUS SUMMARY>\n\n" ++ post) :=
  prevSummary_textPrompt_chained defaultCMConfig c1wml (lit "Conversation Summary: old") []
    (by decide) (by decide) (by decide)

/-- The history used by the C1 counterexample: the prior summary turn is a
`TextResult`, exactly the block type the manager itself produces. -/
def c1ml : List Turn := [[Block.textPrompt (lit "h")],
  [Block.textResult (lit "Conversation Summary: old")],
  [Block.textPrompt (lit "a")], [Block.textResult (lit "b")],
  [Block.textPrompt (lit "c")], [Block.textResult (lit "d")]]

/-- **C1 counterexample**: a history without thinking blocks whose turn
after the head begins with a `TextResult` whose text starts with
`"Conversation Summary:"` is not treated as the previous summary: the
summary content stays at its default, the turn is kept among the events to
be forgotten, and the `<PREVIOUS SUMMARY>` section of the prompt stays
empty.  The detection demands a `TextPrompt`, so the `TextResult` summary
turns this manager itself produces are never chained. -/
theorem prevSummary_textResult_counterexample :
    hasThinkingBlocks c1ml = false ∧
    (lit "Conversation Summary:").isPrefixOf (lit "Conversation Summary: old") = true ∧
    summaryContentB defaultCMConfig c1ml = lit "No events summarized" ∧
    [Block.textResult (lit "Conversation Summary: old")] ∈ forgottenEventsB defaultCMConfig c1ml ∧
    prevSummaryForPrompt (summaryContentB defaultCMConfig c1ml) = [] := by
  decide

/-! ## Claim C5: the `/compact` command -/

/-- **C5** (confirmed).  `/compact` on an empty history emits the error
event and the stream-complete event and leaves the history unchanged; on a
non-empty history it replaces the whole history by exactly one synthetic
user turn, a single `TextPrompt` starting with
`"This session is being continued from a previous conversation"` and
carrying the generated summary. -/
theorem handleCompact_contract (client : LLMGen) (history : List Turn) :
    (history = [] →
      handleCompactCommand client history =
        ([SessionEvent.errorEvent (lit "No conversation history available to compact."),
          SessionEvent.streamComplete], history)) ∧
    (history ≠ [] →
      (handleCompactCommand client history).2 =
        [[Block.textPrompt (compactSeedText (generateCompleteConversationSummary client history))]] ∧
      (handleCompactCommand client history).2.length = 1 ∧
      (lit "This session is being continued from a previous conversation").isPrefixOf
        (compactSeedText (generateCompleteConversationSummary client history)) = true) := by
  constructor
  · intro he
    rw [handleCompactCommand, if_pos he]
  · intro hne
    have h2 : (handleCompactCommand client history).2 =
        [[Block.textPrompt (compactSeedText (generateCompleteConversationSummary client history))]] := by
      rw [handleCompactCommand, if_neg hne]
      simp [addUserPrompt, historyClear]
    refine ⟨h2, by rw [h2]; rfl, ?_⟩
    rw [compactSeedText]
    have hsplit2 : lit "This session is being continued from a previous conversation that ran out of context. The conversation is summarized below:\n\n" =
        lit "This session is being continued from a previous conversation" ++
          lit " that ran out of context. The conversation is summarized below:\n\n" := by decide
    rw [hsplit2, List.append_assoc]
    exact List.isPrefixOf_iff_prefix.mpr (List.prefix_append _ _)

/-- The LLM oracle used by the C5 witness. -/
def c5client : LLMGen := fun _ => .ok [Block.textResult (lit "SUM")]

/-- **C5 witness**: both branches at concrete histories. -/
theorem handleCompact_contract_witness :
    handleCompactCommand c5client [] =
      ([SessionEvent.errorEvent (lit "No conversation history available to compact."),
        SessionEvent.streamComplete], ([] : List Turn)) ∧
    ((handleCompactCommand c5client [[Block.textPrompt (lit "hi")]]).2 =
      [[Block.textPrompt (compactSeedText
          (generateCompleteConversationSummary c5client [[Block.textPrompt (lit "hi")]]))]] ∧
     (handleCompactCommand c5client [[Block.textPrompt (lit "hi")]]).2.length = 1 ∧
     (lit "This session is being continued from a previous conversation").isPrefixOf
        (compactSeedText
          (generateCompleteConversationSummary c5client [[Block.textPrompt (lit "hi")]])) = true) :=
  ⟨(handleCompact_contract c5client []).1 rfl,
   (handleCompact_contract c5client [[Block.textPrompt (lit "hi")]]).2 (by decide)⟩


/-! ## Claim C8: str_replace with empty old_str -/

/-- **C8** (amended).  `str_replace(old="", new=x)` succeeds exactly when
the file content strips to the empty string (empty or whitespace-only, per
the `content.strip()` test of the source); on success the whole file
becomes `x` and the prior content is pushed onto the undo stack, and
otherwise the call fails and leaves both the file and the undo stack
untouched. -/
theorem strReplace_empty_old (st : FileState) (x dp : Str) :
    ((strReplaceOp st [] x dp).1.success = true ↔ pyStrip st.content = []) ∧
    (pyStrip st.content = [] →
      (strReplaceOp st [] x dp).2 = ⟨x, st.undoStack ++ [st.content]⟩) ∧
    (pyStrip st.content ≠ [] →
      (strReplaceOp st [] x dp).1.success = false ∧ (strReplaceOp st [] x dp).2 = st) := by
  have hold : pyStrip ([] : Str) = [] := rfl
  by_cases hc : pyStrip st.content = []
  · have h1 : (strReplaceOp st [] x dp).1.success = true := by
      rw [strReplaceOp, if_pos hold, if_neg (not_not_intro hc)]
    have h2 : (strReplaceOp st [] x dp).2 = ⟨x, st.undoStack ++ [st.content]⟩ := by
      rw [strReplaceOp, if_pos hold, if_neg (not_not_intro hc)]
    exact ⟨⟨fun _ => hc, fun _ => h1⟩, fun _ => h2, fun hne => absurd hc hne⟩
  · have h1 : strReplaceOp st [] x dp =
        (⟨false, lit "No replacement was performed, old_str is empty which is only allowed when the file is empty. The file "
            ++ dp ++ lit " is not empty."⟩, st) := by
      rw [strReplaceOp, if_pos hold, if_pos hc]
    refine ⟨⟨fun hs => ?_, fun he => absurd he hc⟩, fun he => absurd he hc,
      fun _ => ⟨?_, ?_⟩⟩
    · rw [h1] at hs
      exact absurd hs (by simp)
    · rw [h1]
    · rw [h1]

/-- **C8 witness**: on an empty file the whole-file write succeeds and
pushes the old content; on a file holding `a` it fails and changes
nothing. -/
theorem strReplace_empty_old_witness :
    (strReplaceOp ⟨[], []⟩ [] (lit "x") (lit "f")).2 = ⟨lit "x", [[]]⟩ ∧
    ((strReplaceOp ⟨lit "a", []⟩ [] (lit "x") (lit "f")).1.success = false ∧
     (strReplaceOp ⟨lit "a", []⟩ [] (lit "x") (lit "f")).2 = ⟨lit "a", []⟩) :=
  ⟨(strReplace_empty_old ⟨[], []⟩ (lit "x") (lit "f")).2.1 (by decide),
   (strReplace_empty_old ⟨lit "a", []⟩ (lit "x") (lit "f")).2.2 (by decide)⟩

/-- **C8 counterexample**: a file holding a single space is not empty, yet
`str_replace(old="", new=x)` succeeds on it — the source only checks that
the content strips to nothing, so "succeeds iff the file is empty" is
false. -/
theorem strReplace_empty_old_counterexample :
    (strReplaceOp ⟨lit " ", []⟩ [] (lit "x") (lit "f")).1.success = true ∧
    lit " " ≠ ([] : Str) := by
  refine ⟨by decide, by decide⟩

/-! ## Claim C9: failing edits are atomic -/

/-- **C9** (confirmed).  Whenever `_str_replace`, `insert` or `undo_edit`
returns `success = False` — old_str absent or non-unique, empty old_str on
a non-empty file, insert_line out of range, empty undo stack — the file
content and the undo stack are exactly as before the call: every raise
happens before any undo-stack push or file write. -/
theorem failing_edit_ops_atomic :
    (∀ (st : FileState) (oldStr newStr dp : Str),
        (strReplaceOp st oldStr newStr dp).1.success = false →
        (strReplaceOp st oldStr newStr dp).2 = st) ∧
    (∀ (st : FileState) (insertLine : Int) (newStr dp : Str),
        (insertOp st insertLine newStr dp).1.success = false →
        (insertOp st insertLine newStr dp).2 = st) ∧
    (∀ (st : FileState) (dp : Str),
        (undoEditOp st dp).1.success = false → (undoEditOp st dp).2 = st) := by
  refine ⟨fun st oldStr newStr dp h => ?_, fun st il ns dp h => ?_, fun st dp h => ?_⟩
  · simp only [strReplaceOp] at h ⊢
    split_ifs at h ⊢ <;> rfl
  · simp only [insertOp] at h ⊢
    split_ifs at h ⊢
    rfl
  · simp only [undoEditOp] at h ⊢
    split_ifs at h ⊢
    rfl

/-- **C9 witness**: an absent old_str, an out-of-range insert line and an
empty undo stack each fail and leave the file state as it was. -/
theorem failing_edit_ops_atomic_witness :
    (strReplaceOp ⟨lit "abc", []⟩ (lit "zz") (lit "y") (lit "f")).2 = ⟨lit "abc", []⟩ ∧
    (insertOp ⟨lit "a", []⟩ 5 (lit "x") (lit "f")).2 = ⟨lit "a", []⟩ ∧
    (undoEditOp ⟨lit "a", []⟩ (lit "f")).2 = ⟨lit "a", []⟩ :=
  ⟨failing_edit_ops_atomic.1 ⟨lit "abc", []⟩ (lit "zz") (lit "y") (lit "f") (by decide),
   failing_edit_ops_atomic.2.1 ⟨lit "a", []⟩ 5 (lit "x") (lit "f") (by decide),
   failing_edit_ops_atomic.2.2 ⟨lit "a", []⟩ (lit "f") (by decide)⟩

end IIAgent
